import Mathlib

/-!
Shallow embedding of `src/inventory-system.js` (classes `InventorySystem` and
`GardenInventory`).  JS `Map` objects are modelled as insertion-ordered
association lists, JS numbers used as quantities/levels as `Int`, the tool
`efficiency` (multiplied by the float `1.2`) as `ℚ`, and timestamps
(`Date.now()`) as an explicit `now : Nat` argument.  A method that can `throw`
returns `Except InvError α` together with the state as mutated up to the throw
(JS exceptions do not roll back earlier mutations).  Outbound
`PortalsSdk.sendMessageToUnity` task updates are recorded in a `sent` list.
-/

set_option autoImplicit false

namespace GardenInv

/-- Scalar value of a Portals variable (`number | string`, or JS `undefined`). -/
inductive PValue where
  | num (x : Int)
  | str (s : String)
  | undef
deriving DecidableEq

/-- One item record as stored in `this.inventory`. -/
structure Item where
  id : String
  name : String
  type : String
  category : Option String := none
  quantity : Int := 0
  consumable : Bool := false
  plantType : Option String := none
  growthTime : Option Int := none
  level : Option Int := none
  efficiency : Option ℚ := none
  addedAt : Nat := 0
  lastModified : Nat := 0
deriving DecidableEq

/-- A `{id, quantity, name}` material requirement of a recipe / tool upgrade. -/
structure Material where
  id : String
  name : String
  quantity : Int
deriving DecidableEq

/-- A craft recipe: material requirements plus a result item template. -/
structure Recipe where
  materials : List Material
  result : Item
deriving DecidableEq

/-- Return value of `removeItem`. -/
structure RemoveResult where
  removed : Bool
  quantity : Int
  remaining : Option Int := none
deriving DecidableEq

/-- Return value of `getInventory`. -/
structure InventoryView where
  items : List Item
  count : Nat
  maxSlots : Nat
  emptySlots : Int
deriving DecidableEq

/-- Return value of `exportData` (the persisted blob, metadata flattened). -/
structure ExportBlob where
  items : List Item
  exportedAt : Nat
  maxSlots : Nat
  itemCount : Nat
deriving DecidableEq

/-- Return value of `plantSeed`. -/
structure PlantResult where
  plotId : String
  seedType : Option String
  growthTime : Option Int
deriving DecidableEq

/-- The failure kinds the engine can raise.  `runtimeTypeError` stands for a
JS `TypeError` (accessing a field of `undefined`, or calling the nowhere-defined
`this.sendToParent`). -/
inductive InvError where
  | invalidItem
  | capacityExceeded
  | notFound (id : String)
  | insufficientQuantity (name : String)
  | notConsumable (name : String)
  | insufficientMaterial (name : String)
  | invalidSeed
  | invalidTool
  | invalidImportData
  | runtimeTypeError
deriving DecidableEq

/-- An `updateItem` patch: `Object.assign` merges the given fields into the
record; an absent field (`none`) leaves the record's field alone. -/
structure Patch where
  id : Option String := none
  name : Option String := none
  type : Option String := none
  category : Option (Option String) := none
  quantity : Option Int := none
  consumable : Option Bool := none
  plantType : Option (Option String) := none
  growthTime : Option (Option Int) := none
  level : Option (Option Int) := none
  efficiency : Option (Option ℚ) := none
deriving DecidableEq

/-- The engine state: configuration, the item `Map`, the Portals variable map,
and the sequence of `(TaskName, TaskTargetState)` updates sent to Unity. -/
structure InvState where
  maxSlots : Nat
  taskPref : String
  inventory : List (String × Item)
  portalsVariables : List (String × PValue)
  sent : List (String × String)
deriving DecidableEq

/-- `Map.get`: first entry with the given key. -/
def lookupKey {α : Type} (l : List (String × α)) (k : String) : Option α :=
  (l.find? (fun p => decide (p.1 = k))).map Prod.snd

/-- `Map.has`. -/
def hasKey {α : Type} (l : List (String × α)) (k : String) : Bool :=
  l.any (fun p => decide (p.1 = k))

/-- `Map.set`: update in place when the key is present (keeping its position),
otherwise append, matching JS `Map` insertion order. -/
def setKey {α : Type} (l : List (String × α)) (k : String) (v : α) : List (String × α) :=
  if hasKey l k then l.map (fun p => if p.1 = k then (k, v) else p) else l ++ [(k, v)]

/-- `Map.delete`. -/
def delKey {α : Type} (l : List (String × α)) (k : String) : List (String × α) :=
  l.filter (fun p => decide (¬ p.1 = k))

/-- `sendTaskUpdate`: records the outbound task update. -/
def sendTaskUpdate (s : InvState) (taskName targetState : String) : InvState :=
  { s with sent := s.sent ++ [(taskName, targetState)] }

/-- `getTaskName(action, itemId = '')`. -/
def getTaskName (s : InvState) (action itemId : String) : String :=
  s.taskPref ++ "_" ++ action ++ (if itemId = "" then "" else "_" ++ itemId)

/-- `saveInventory`: persists to localStorage (external best-effort I/O); the
in-memory state is unchanged and write failures are swallowed. -/
def saveInventory (s : InvState) : InvState := s

/-- `addItem(item, quantity = 1)`.  A JS `undefined` item (field access on it
throws) is modelled as `none`.  The merge `(existingItem.quantity || 0) + quantity`
coincides with plain integer addition, since `0 || 0 = 0`. -/
def addItem (s : InvState) (item? : Option Item) (quantity : Int) (now : Nat) :
    Except InvError Item × InvState :=
  match item? with
  | none => (Except.error InvError.runtimeTypeError, s)
  | some item =>
    if item.id = "" ∨ item.name = "" ∨ item.type = "" then
      (Except.error InvError.invalidItem, s)
    else if s.maxSlots ≤ s.inventory.length ∧ lookupKey s.inventory item.id = none then
      let s1 := sendTaskUpdate s (getTaskName s "full" "") "SetNotActiveToActive"
      (Except.error InvError.capacityExceeded, s1)
    else
      match lookupKey s.inventory item.id with
      | some existing =>
        let updated := { existing with quantity := existing.quantity + quantity,
                                       lastModified := now }
        let s1 := { s with inventory := setKey s.inventory item.id updated }
        let s2 := sendTaskUpdate s1 (getTaskName s1 "item_updated" item.id) "SetNotActiveToActive"
        (Except.ok updated, saveInventory s2)
      | none =>
        let newItem := { item with quantity := quantity, addedAt := now, lastModified := now }
        let s1 := { s with inventory := setKey s.inventory item.id newItem }
        let s2 := sendTaskUpdate s1 (getTaskName s1 "item_added" item.id) "SetNotActiveToCompleted"
        (Except.ok newItem, saveInventory s2)

/-- `removeItem(itemId, quantity = null)`: `null` or `quantity >= current`
deletes the record; otherwise decrements.  No guard against `quantity <= 0`. -/
def removeItem (s : InvState) (itemId : String) (quantity? : Option Int) (now : Nat) :
    Except InvError RemoveResult × InvState :=
  match lookupKey s.inventory itemId with
  | none => (Except.error (InvError.notFound itemId), s)
  | some item =>
    let full : Except InvError RemoveResult × InvState :=
      let s1 := { s with inventory := delKey s.inventory itemId }
      let s2 := sendTaskUpdate s1 (getTaskName s1 "item_removed" itemId) "SetActiveToCompleted"
      (Except.ok { removed := true, quantity := item.quantity }, saveInventory s2)
    match quantity? with
    | none => full
    | some q =>
      if item.quantity ≤ q then full
      else
        let updated := { item with quantity := item.quantity - q, lastModified := now }
        let s1 := { s with inventory := setKey s.inventory itemId updated }
        let s2 := sendTaskUpdate s1 (getTaskName s1 "item_updated" itemId) "SetActiveToActive"
        (Except.ok { removed := false, quantity := q, remaining := some (item.quantity - q) },
         saveInventory s2)

/-- `getItem(itemId)`: the record, or `null`. -/
def getItem (s : InvState) (itemId : String) : Option Item :=
  lookupKey s.inventory itemId

/-- `Object.assign(item, updates)` — every field carried by the patch overwrites
the record's field. -/
def applyPatch (it : Item) (p : Patch) : Item :=
  { id := p.id.getD it.id
    name := p.name.getD it.name
    type := p.type.getD it.type
    category := p.category.getD it.category
    quantity := p.quantity.getD it.quantity
    consumable := p.consumable.getD it.consumable
    plantType := p.plantType.getD it.plantType
    growthTime := p.growthTime.getD it.growthTime
    level := p.level.getD it.level
    efficiency := p.efficiency.getD it.efficiency
    addedAt := it.addedAt
    lastModified := it.lastModified }

/-- `updateItem(itemId, updates)`: merges the patch (a JS `undefined` patch is
ignored by `Object.assign`), always refreshing `lastModified`. -/
def updateItem (s : InvState) (itemId : String) (updates : Option Patch) (now : Nat) :
    Except InvError Item × InvState :=
  match lookupKey s.inventory itemId with
  | none => (Except.error (InvError.notFound itemId), s)
  | some item =>
    let item1 := { (match updates with
                    | some p => applyPatch item p
                    | none => item) with lastModified := now }
    let s1 := { s with inventory := setKey s.inventory itemId item1 }
    let s2 := sendTaskUpdate s1 (getTaskName s1 "item_updated" itemId) "SetActiveToActive"
    (Except.ok item1, saveInventory s2)

/-- `getInventory()`. -/
def getInventory (s : InvState) : InventoryView :=
  { items := s.inventory.map Prod.snd
    count := s.inventory.length
    maxSlots := s.maxSlots
    emptySlots := (s.maxSlots : Int) - (s.inventory.length : Int) }

/-- `getItemsByCategory(category)`: matches either the `category` field or the
`type` field. -/
def getItemsByCategory (s : InvState) (category : String) : List Item :=
  (s.inventory.map Prod.snd).filter
    (fun it => decide (it.category = some category) || decide (it.type = category))

/-- `useItem(itemId, quantity = 1)`: not-found, insufficiency and consumability
checks, then delegation to `removeItem`. -/
def useItem (s : InvState) (itemId : String) (quantity : Int) (now : Nat) :
    Except InvError Unit × InvState :=
  match lookupKey s.inventory itemId with
  | none => (Except.error (InvError.notFound itemId), s)
  | some item =>
    if item.quantity < quantity then
      (Except.error (InvError.insufficientQuantity item.name), s)
    else if item.consumable = false ∧ item.type ≠ "seed" ∧ item.type ≠ "fertilizer" then
      (Except.error (InvError.notConsumable item.name), s)
    else
      match removeItem s itemId (some quantity) now with
      | (Except.error e, s1) => (Except.error e, s1)
      | (Except.ok _, s1) =>
        let s2 := sendTaskUpdate s1 (getTaskName s1 "item_used" itemId) "SetActiveToCompleted"
        (Except.ok (), s2)

/-- `transferItem(itemId, quantity, targetId)`.  A JS `undefined` quantity makes
the insufficiency comparison false and is passed through to `removeItem`, where
the default parameter turns it into `null` (full removal). -/
def transferItem (s : InvState) (itemId : String) (quantity? : Option Int)
    (targetId : String) (now : Nat) : Except InvError Unit × InvState :=
  match getItem s itemId with
  | none => (Except.error (InvError.notFound itemId), s)
  | some item =>
    if (match quantity? with
        | some q => decide (item.quantity < q)
        | none => false) then
      (Except.error (InvError.insufficientQuantity item.name), s)
    else
      match removeItem s itemId quantity? now with
      | (Except.error e, s1) => (Except.error e, s1)
      | (Except.ok _, s1) =>
        let s2 := sendTaskUpdate s1
          (getTaskName s1 "transfer" (itemId ++ "_to_" ++ targetId)) "SetActiveToCompleted"
        (Except.ok (), s2)

/-- `clearInventory()`. -/
def clearInventory (s : InvState) : Nat × InvState :=
  let itemCount := s.inventory.length
  let s1 := { s with inventory := [] }
  let s2 := sendTaskUpdate s1 (getTaskName s1 "cleared" "") "SetActiveToCompleted"
  (itemCount, saveInventory s2)

/-- `exportData()`.  The JS spread `{id, ...item}` re-adds the `id` the record
already carries (the record's own `id` wins in the spread), so each exported
entry is the stored record itself. -/
def exportData (s : InvState) (now : Nat) : ExportBlob :=
  { items := s.inventory.map Prod.snd
    exportedAt := now
    maxSlots := s.maxSlots
    itemCount := s.inventory.length }

/-- `importData(data)`.  A missing or non-array `items` field is modelled as
`none`.  On well-formed input the store is cleared and rebuilt wholesale; the
subsequent call to `this.sendToParent` — a method defined nowhere on either
class — then raises a `TypeError`, after the replacement has already happened. -/
def importData (s : InvState) (items? : Option (List Item)) :
    Except InvError Nat × InvState :=
  match items? with
  | none => (Except.error InvError.invalidImportData, s)
  | some items =>
    let inv := items.foldl (fun l it => setKey l it.id it) []
    let s1 := { s with inventory := inv }
    (Except.error InvError.runtimeTypeError, s1)

/-- `syncPortalsVariable(variableName, value)`: last-write-wins map update. -/
def syncPortalsVariable (s : InvState) (variableName : String) (v : PValue) : InvState :=
  { s with portalsVariables := setKey s.portalsVariables variableName v }

/-- `GardenInventory.plantSeed({seedId, plotId})`: requires `type === 'seeds'`
(the `this.categories.SEEDS` constant), then consumes 1 via `useItem` and
returns the seed's carried growth metadata. -/
def plantSeed (s : InvState) (seedId plotId : String) (now : Nat) :
    Except InvError PlantResult × InvState :=
  match getItem s seedId with
  | none => (Except.error InvError.invalidSeed, s)
  | some seed =>
    if seed.type ≠ "seeds" then (Except.error InvError.invalidSeed, s)
    else
      match useItem s seedId 1 now with
      | (Except.error e, s1) => (Except.error e, s1)
      | (Except.ok _, s1) =>
        let s2 := sendTaskUpdate s1
          (getTaskName s1 "seed_planted" (seedId ++ "_" ++ plotId)) "SetNotActiveToCompleted"
        (Except.ok { plotId := plotId, seedType := seed.plantType,
                     growthTime := seed.growthTime }, s2)

/-- `GardenInventory.harvestPlant({plotId, produce})`: unconditional `addItem`
of the produce (a missing `produce` object throws a `TypeError`). -/
def harvestPlant (s : InvState) (plotId : String) (produce? : Option (Item × Int))
    (now : Nat) : Except InvError Unit × InvState :=
  match produce? with
  | none => (Except.error InvError.runtimeTypeError, s)
  | some produce =>
    match addItem s (some produce.1) produce.2 now with
    | (Except.error e, s1) => (Except.error e, s1)
    | (Except.ok _, s1) =>
      let s2 := sendTaskUpdate s1 (getTaskName s1 "plant_harvested" plotId) "SetActiveToCompleted"
      (Except.ok (), s2)

/-- The material-validation loop shared by `upgradeTool` (multiplier 1) and
`craftItem` (multiplier `quantity`): the first material that is absent or short. -/
def findInsufficient (s : InvState) (materials : List Material) (mult : Int) :
    Option Material :=
  materials.find? (fun m =>
    match getItem s m.id with
    | none => true
    | some it => decide (it.quantity < m.quantity * mult))

/-- The material-consumption `forEach` loop: successive `removeItem` calls; a
throw from `removeItem` aborts the loop, keeping the removals made so far. -/
def consumeMaterials (s : InvState) (materials : List Material) (mult : Int) (now : Nat) :
    Except InvError Unit × InvState :=
  match materials with
  | [] => (Except.ok (), s)
  | m :: rest =>
    match removeItem s m.id (some (m.quantity * mult)) now with
    | (Except.error e, s1) => (Except.error e, s1)
    | (Except.ok _, s1) => consumeMaterials s1 rest mult now

/-- `GardenInventory.upgradeTool({toolId, upgradeMaterials})`: requires
`type === 'tools'`, validates all materials, consumes them, then bumps
`level` (`(tool.level || 1) + 1`) and `efficiency` (`(tool.efficiency || 1) * 1.2`)
on the captured tool object.  The in-place JS mutation is visible in the store
only while the record is still present after consumption. -/
def upgradeTool (s : InvState) (toolId : String) (materials : List Material) (now : Nat) :
    Except InvError Unit × InvState :=
  match getItem s toolId with
  | none => (Except.error InvError.invalidTool, s)
  | some tool =>
    if tool.type ≠ "tools" then (Except.error InvError.invalidTool, s)
    else
      match findInsufficient s materials 1 with
      | some m => (Except.error (InvError.insufficientMaterial m.name), s)
      | none =>
        match consumeMaterials s materials 1 now with
        | (Except.error e, s1) => (Except.error e, s1)
        | (Except.ok _, s1) =>
          let s2 :=
            match lookupKey s1.inventory toolId with
            | some t =>
              let t1 := { t with
                level := some ((if t.level.getD 0 = 0 then 1 else t.level.getD 0) + 1)
                efficiency := some ((if t.efficiency.getD 0 = 0 then 1
                                     else t.efficiency.getD 0) * (6 / 5 : ℚ))
                lastModified := now }
              { s1 with inventory := setKey s1.inventory toolId t1 }
            | none => s1
          let s3 := sendTaskUpdate s2 (getTaskName s2 "tool_upgraded" toolId) "SetActiveToCompleted"
          (Except.ok (), saveInventory s3)

/-- `GardenInventory.craftItem({recipe, quantity = 1})`: validates every
material at `material.quantity * quantity`, consumes them, then adds the
result item — which can itself throw, after the materials are consumed. -/
def craftItem (s : InvState) (recipe : Recipe) (quantity : Int) (now : Nat) :
    Except InvError Unit × InvState :=
  match findInsufficient s recipe.materials quantity with
  | some m => (Except.error (InvError.insufficientMaterial m.name), s)
  | none =>
    match consumeMaterials s recipe.materials quantity now with
    | (Except.error e, s1) => (Except.error e, s1)
    | (Except.ok _, s1) =>
      match addItem s1 (some recipe.result) quantity now with
      | (Except.error e, s2) => (Except.error e, s2)
      | (Except.ok _, s2) =>
        let s3 := sendTaskUpdate s2
          (getTaskName s2 "item_crafted" recipe.result.id) "SetNotActiveToCompleted"
        (Except.ok (), s3)

/-- One inbound Unity message: the `action` discriminator plus the payload
fields the handlers destructure, each `none` when absent (`undefined`). -/
structure UnityMessage where
  action : String
  item : Option Item := none
  itemId : Option String := none
  quantity : Option Int := none
  updates : Option Patch := none
  targetId : Option String := none
  category : Option String := none
  name : Option String := none
  value : Option PValue := none
  seedId : Option String := none
  plotId : Option String := none
  produce : Option (Item × Int) := none
  toolId : Option String := none
  upgradeMaterials : Option (List Material) := none
  recipe : Option Recipe := none
deriving DecidableEq

/-- `params.quantity || 1`: `undefined` and `0` are falsy and become `1`. -/
def quantityOrOne (q? : Option Int) : Int :=
  match q? with
  | none => 1
  | some q => if q = 0 then 1 else q

/-- The `switch (action)` body of `InventorySystem.handleUnityMessage`:
`none` is the unknown-action default (log and return), otherwise the routed
engine call's outcome and resulting state. -/
def baseRoute (s : InvState) (msg : UnityMessage) (now : Nat) :
    Option (Except InvError Unit × InvState) :=
  match msg.action with
  | "addItem" =>
    let r := addItem s msg.item (quantityOrOne msg.quantity) now
    some (r.1.map (fun _ => ()), r.2)
  | "removeItem" =>
    let r := removeItem s (msg.itemId.getD "undefined") msg.quantity now
    some (r.1.map (fun _ => ()), r.2)
  | "getInventory" =>
    some (Except.ok (), sendTaskUpdate s "inventory_data_response" "SetNotActiveToActive")
  | "getItem" => some (Except.ok (), s)
  | "updateItem" =>
    let r := updateItem s (msg.itemId.getD "undefined") msg.updates now
    some (r.1.map (fun _ => ()), r.2)
  | "useItem" =>
    some (useItem s (msg.itemId.getD "undefined") (quantityOrOne msg.quantity) now)
  | "transferItem" =>
    some (transferItem s (msg.itemId.getD "undefined") msg.quantity
      (msg.targetId.getD "undefined") now)
  | "clearInventory" =>
    some (Except.ok (), (clearInventory s).2)
  | "getCategory" => some (Except.ok (), s)
  | "syncVariable" =>
    some (Except.ok (), syncPortalsVariable s (msg.name.getD "undefined")
      (msg.value.getD PValue.undef))
  | _ => none

/-- The `try/catch` of `InventorySystem.handleUnityMessage`: unknown actions are
silently ignored, a thrown failure is caught and converted to an
`inventory_error_<action>` task update. -/
def handleBase (s : InvState) (msg : UnityMessage) (now : Nat) : InvState :=
  match baseRoute s msg now with
  | none => s
  | some (Except.ok _, s1) => s1
  | some (Except.error _, s1) =>
    sendTaskUpdate s1 ("inventory_error_" ++ msg.action) "SetActiveToNotActive"

/-- The garden-specific `switch (action)` arm of
`GardenInventory.handleUnityMessage`; `none` falls through to the parent. -/
def gardenRoute (s : InvState) (msg : UnityMessage) (now : Nat) :
    Option (Except InvError Unit × InvState) :=
  match msg.action with
  | "plantSeed" =>
    let r := plantSeed s (msg.seedId.getD "undefined") (msg.plotId.getD "undefined") now
    some (r.1.map (fun _ => ()), r.2)
  | "harvestPlant" =>
    some (harvestPlant s (msg.plotId.getD "undefined") msg.produce now)
  | "upgradeTool" =>
    match msg.upgradeMaterials with
    | none => some (Except.error InvError.runtimeTypeError, s)
    | some mats => some (upgradeTool s (msg.toolId.getD "undefined") mats now)
  | "craftItem" =>
    match msg.recipe with
    | none => some (Except.error InvError.runtimeTypeError, s)
    | some recipe => some (craftItem s recipe (msg.quantity.getD 1) now)
  | _ => none

/-- `GardenInventory.handleUnityMessage`: garden actions handled locally with a
`garden_error_<action>` catch, everything else delegated to the parent. -/
def handleUnityMessage (s : InvState) (msg : UnityMessage) (now : Nat) : InvState :=
  match gardenRoute s msg now with
  | some (Except.ok _, s1) => s1
  | some (Except.error _, s1) =>
    sendTaskUpdate s1 ("garden_error_" ++ msg.action) "SetActiveToNotActive"
  | none => handleBase s msg now

/-- The full action vocabulary of the two dispatchers' `switch` statements. -/
def knownActions : List String :=
  ["addItem", "removeItem", "getInventory", "getItem", "updateItem", "useItem",
   "transferItem", "clearInventory", "getCategory", "syncVariable",
   "plantSeed", "harvestPlant", "upgradeTool", "craftItem"]


/-- Convenience constructor for a plain item record. -/
def mkItem (i n ty : String) (q : Int) : Item :=
  { id := i, name := n, type := ty, quantity := q }

/-- Convenience constructor for a freshly initialised engine state. -/
def invSt (slots : Nat) (inv : List (String × Item)) : InvState :=
  { maxSlots := slots, taskPref := "inventory", inventory := inv,
    portalsVariables := [], sent := [] }

/-- A store holding a single resource stack of five. -/
def stateA : InvState := invSt 50 [("a", mkItem "a" "Apple" "resource" 5)]

/-- A one-slot store already holding five wood. -/
def woodState : InvState := invSt 1 [("wood", mkItem "wood" "Wood" "resource" 5)]

/-- Recipe: 2 wood produce 1 axe. -/
def axeRecipe : Recipe :=
  { materials := [{ id := "wood", name := "Wood", quantity := 2 }],
    result := mkItem "axe" "Axe" "tool" 0 }

/-- Recipe of the spec's crafting scenario: 2 wood and 1 stone produce 1 axe. -/
def axeRecipe2 : Recipe :=
  { materials := [{ id := "wood", name := "Wood", quantity := 2 },
                  { id := "stone", name := "Stone", quantity := 1 }],
    result := mkItem "axe" "Axe" "tool" 0 }

/-- A store with only one wood, short of `axeRecipe2`. -/
def shortWoodState : InvState := invSt 50 [("wood", mkItem "wood" "Wood" "resource" 1)]

/-- A store with a seed stack whose `type` is the singular `"seed"`. -/
def seedState : InvState := invSt 50 [("seed-1", mkItem "seed-1" "Tomato Seed" "seed" 3)]

/-- A store with a seed stack whose `type` is the plural `"seeds"`. -/
def seedsState : InvState := invSt 50 [("seed-1", mkItem "seed-1" "Tomato Seed" "seeds" 3)]

/-- An empty one-slot store. -/
def capState : InvState := invSt 1 []

/-- A full one-slot store. -/
def fullState : InvState := invSt 1 [("a", mkItem "a" "Apple" "resource" 1)]

/-- A store with a consumable stack of five. -/
def consumableState : InvState :=
  invSt 50 [("a", { id := "a", name := "Apple", type := "resource",
                    quantity := 5, consumable := true })]

/-- A two-item store whose records carry their own keys as `id`. -/
def twoItemState : InvState :=
  invSt 50 [("a", mkItem "a" "Apple" "resource" 2), ("b", mkItem "b" "Berry" "resource" 7)]


/-- Target-state tokens the (amended) claim predicts for one `addItem` call:
a rejected-invalid add emits nothing, a capacity-exceeded add emits
`SetNotActiveToActive`, adding to an existing id emits `SetNotActiveToActive`,
and adding a new id emits `SetNotActiveToCompleted`. -/
def claimedAddTokens (s : InvState) (item? : Option Item) : List String :=
  match item? with
  | none => []
  | some item =>
    if item.id = "" ∨ item.name = "" ∨ item.type = "" then []
    else if s.maxSlots ≤ s.inventory.length ∧ lookupKey s.inventory item.id = none then
      ["SetNotActiveToActive"]
    else if (lookupKey s.inventory item.id).isSome then ["SetNotActiveToActive"]
    else ["SetNotActiveToCompleted"]

/-- Target-state tokens the claim predicts for one `removeItem` call: a full
removal emits `SetActiveToCompleted`, a partial removal `SetActiveToActive`,
a failing removal nothing. -/
def claimedRemoveTokens (s : InvState) (itemId : String) (q? : Option Int) : List String :=
  match lookupKey s.inventory itemId with
  | none => []
  | some item =>
    match q? with
    | none => ["SetActiveToCompleted"]
    | some q => if item.quantity ≤ q then ["SetActiveToCompleted"] else ["SetActiveToActive"]

/-- Target-state tokens of one `useItem` call (amended): the delegated
removal's token followed by the use's own `SetActiveToCompleted`. -/
def claimedUseTokens (s : InvState) (itemId : String) (q : Int) : List String :=
  match lookupKey s.inventory itemId with
  | none => []
  | some item =>
    if item.quantity < q then []
    else if item.consumable = false ∧ item.type ≠ "seed" ∧ item.type ≠ "fertilizer" then []
    else claimedRemoveTokens s itemId (some q) ++ ["SetActiveToCompleted"]

/-- Target-state tokens of one `transferItem` call (amended): the delegated
removal's token followed by the transfer's own `SetActiveToCompleted`. -/
def claimedTransferTokens (s : InvState) (itemId : String) (q? : Option Int) : List String :=
  match lookupKey s.inventory itemId with
  | none => []
  | some item =>
    if (match q? with
        | some q => decide (item.quantity < q)
        | none => false) then []
    else claimedRemoveTokens s itemId q? ++ ["SetActiveToCompleted"]

deriving instance DecidableEq for Except

theorem lookupKey_nil {α : Type} (k : String) : lookupKey ([] : List (String × α)) k = none := rfl

theorem lookupKey_cons {α : Type} (p : String × α) (t : List (String × α)) (k : String) :
    lookupKey (p :: t) k = if p.1 = k then some p.2 else lookupKey t k := by
  by_cases h : p.1 = k <;> simp [lookupKey, List.find?_cons, h]

theorem hasKey_cons {α : Type} (p : String × α) (t : List (String × α)) (k : String) :
    hasKey (p :: t) k = (decide (p.1 = k) || hasKey t k) := by
  simp [hasKey]

theorem hasKey_eq_isSome {α : Type} (l : List (String × α)) (k : String) :
    hasKey l k = (lookupKey l k).isSome := by
  induction l with
  | nil => rfl
  | cons p t ih =>
    rw [hasKey_cons, lookupKey_cons, ih]
    by_cases h : p.1 = k <;> simp [h]

theorem lookupKey_append {α : Type} (l l' : List (String × α)) (k : String) :
    lookupKey (l ++ l') k =
      match lookupKey l k with
      | some v => some v
      | none => lookupKey l' k := by
  induction l with
  | nil => simp [lookupKey_nil]
  | cons p t ih =>
    rw [List.cons_append, lookupKey_cons, lookupKey_cons]
    by_cases h : p.1 = k <;> simp [h, ih]

theorem hasKey_append {α : Type} (l l' : List (String × α)) (k : String) :
    hasKey (l ++ l') k = (hasKey l k || hasKey l' k) := by
  simp [hasKey]

theorem lookupKey_mapSet {α : Type} (l : List (String × α)) (k : String) (v : α) :
    lookupKey (l.map (fun p => if p.1 = k then (k, v) else p)) k
      = (lookupKey l k).map (fun _ => v) := by
  induction l with
  | nil => rfl
  | cons p t ih =>
    simp only [List.map_cons]
    by_cases hp : p.1 = k
    · rw [if_pos hp, lookupKey_cons, lookupKey_cons, if_pos hp, if_pos rfl]
      rfl
    · rw [if_neg hp, lookupKey_cons, lookupKey_cons, if_neg hp, if_neg hp]
      exact ih

theorem lookupKey_mapSet_ne {α : Type} (l : List (String × α)) (k k' : String) (v : α)
    (h : k' ≠ k) :
    lookupKey (l.map (fun p => if p.1 = k then (k, v) else p)) k' = lookupKey l k' := by
  induction l with
  | nil => rfl
  | cons p t ih =>
    simp only [List.map_cons]
    by_cases hp : p.1 = k
    · rw [if_pos hp, lookupKey_cons, lookupKey_cons]
      rw [if_neg (fun hc => h hc.symm), if_neg (fun hc : p.1 = k' => h (hp ▸ hc).symm)]
      exact ih
    · rw [if_neg hp, lookupKey_cons, lookupKey_cons]
      by_cases hp' : p.1 = k'
      · rw [if_pos hp', if_pos hp']
      · rw [if_neg hp', if_neg hp']
        exact ih

theorem lookupKey_eq_none_of_not_hasKey {α : Type} (l : List (String × α)) (k : String)
    (h : hasKey l k = false) : lookupKey l k = none := by
  rw [hasKey_eq_isSome] at h
  cases hval : lookupKey l k with
  | none => rfl
  | some v' => rw [hval] at h; simp at h

theorem lookupKey_setKey {α : Type} (l : List (String × α)) (k : String) (v : α) :
    lookupKey (setKey l k v) k = some v := by
  unfold setKey
  by_cases h : hasKey l k
  · rw [if_pos h, lookupKey_mapSet]
    rw [hasKey_eq_isSome] at h
    cases hval : lookupKey l k with
    | none => rw [hval] at h; simp at h
    | some v' => rfl
  · rw [if_neg h, lookupKey_append,
        lookupKey_eq_none_of_not_hasKey l k (Bool.not_eq_true _ ▸ h)]
    simp [lookupKey_cons]

theorem lookupKey_setKey_ne {α : Type} (l : List (String × α)) (k k' : String) (v : α)
    (h : k' ≠ k) : lookupKey (setKey l k v) k' = lookupKey l k' := by
  unfold setKey
  by_cases hk : hasKey l k
  · rw [if_pos hk, lookupKey_mapSet_ne l k k' v h]
  · rw [if_neg hk, lookupKey_append]
    cases hval : lookupKey l k' with
    | some v' => rfl
    | none =>
      rw [lookupKey_cons]
      simp only [lookupKey_nil, if_neg (fun hc : (k, v).1 = k' => h (hc.symm))]

theorem lookupKey_delKey {α : Type} (l : List (String × α)) (k : String) :
    lookupKey (delKey l k) k = none := by
  induction l with
  | nil => rfl
  | cons p t ih =>
    unfold delKey at *
    by_cases hp : p.1 = k
    · simpa [hp] using ih
    · simpa [hp, lookupKey_cons] using ih

theorem hasKey_delKey {α : Type} (l : List (String × α)) (k : String) :
    hasKey (delKey l k) k = false := by
  rw [hasKey_eq_isSome, lookupKey_delKey]; rfl

theorem length_setKey {α : Type} (l : List (String × α)) (k : String) (v : α) :
    (setKey l k v).length = if hasKey l k then l.length else l.length + 1 := by
  unfold setKey
  by_cases h : hasKey l k <;> simp [h]


/-- C3: contrary to the claim, `removeItem` accepts a non-null quantity `q ≤ 0`
without any `InvalidArgument` failure: on a stack of 5, `removeItem("a", -3)`
succeeds through the partial-removal branch and *grows* the stored quantity to
8, and `removeItem("a", 0)` also succeeds. -/
theorem removeItem_accepts_nonpositive_quantity :
    (removeItem stateA "a" (some (-3)) 2).1
      = Except.ok { removed := false, quantity := -3, remaining := some 8 }
  ∧ (lookupKey (removeItem stateA "a" (some (-3)) 2).2.inventory "a").map Item.quantity
      = some 8
  ∧ (removeItem stateA "a" (some 0) 2).1
      = Except.ok { removed := false, quantity := 0, remaining := some 5 } := by
  refine ⟨by decide, by decide, by decide⟩

/-- C2: contrary to the claim, `updateItem` applies a `{quantity: 0}` patch
verbatim: the call succeeds and the record stays in the store with quantity 0,
violating the quantity ≥ 1 invariant. -/
theorem updateItem_stores_zero_quantity :
    (updateItem stateA "a" (some { quantity := some 0 }) 7).1.isOk = true
  ∧ hasKey (updateItem stateA "a" (some { quantity := some 0 }) 7).2.inventory "a" = true
  ∧ (lookupKey (updateItem stateA "a" (some { quantity := some 0 }) 7).2.inventory "a").map
      Item.quantity = some 0 := by
  refine ⟨by decide, by decide, by decide⟩

/-- C5: contrary to the claim, `plantSeed` cannot succeed on a plain seed
record: `plantSeed` requires `type === 'seeds'` (the `categories.SEEDS`
constant) while the `useItem` it delegates to only treats `type === 'seed'`
as consumable, so a record typed `"seed"` fails `InvalidSeed` and a record
typed `"seeds"` (not marked consumable) fails `NotConsumable`; the store is
unchanged in both cases. -/
theorem plantSeed_category_mismatch :
    plantSeed seedState "seed-1" "plot-1" 4 = (Except.error InvError.invalidSeed, seedState)
  ∧ plantSeed seedsState "seed-1" "plot-1" 4
      = (Except.error (InvError.notConsumable "Tomato Seed"), seedsState) := by
  refine ⟨by decide, by decide⟩

/-- C4 counterexample: `importData` performs no capacity check, so restoring a
two-item blob into a one-slot store leaves the store size 2 > `maxSlots` = 1,
refuting the claim that size ≤ `maxSlots` across every operation including
restore/import. -/
theorem importData_exceeds_capacity :
    capState.maxSlots = 1
  ∧ (importData capState (some [mkItem "a" "A" "resource" 1,
      mkItem "b" "B" "resource" 1])).2.inventory.length = 2 := by
  refine ⟨by decide, by decide⟩

/-- C4 (amended): `addItem` does maintain the capacity bound — it never grows
the store past `maxSlots`, adding a valid new id to a full store fails
`CapacityExceeded` with the item map unchanged, and adding to an existing id
at capacity still succeeds by merging — but `importData` (the restore path)
has no capacity check at all. -/
theorem addItem_capacity_invariant (s : InvState) (item? : Option Item) (q : Int) (now : Nat)
    (hlen : s.inventory.length ≤ s.maxSlots) :
    (addItem s item? q now).2.inventory.length ≤ s.maxSlots
  ∧ (∀ item : Item, item? = some item →
      ¬(item.id = "" ∨ item.name = "" ∨ item.type = "") →
      s.inventory.length = s.maxSlots → lookupKey s.inventory item.id = none →
      (addItem s item? q now).1 = Except.error InvError.capacityExceeded
        ∧ (addItem s item? q now).2.inventory = s.inventory)
  ∧ (∀ item : Item, item? = some item →
      ¬(item.id = "" ∨ item.name = "" ∨ item.type = "") →
      hasKey s.inventory item.id = true →
      ∃ r, (addItem s item? q now).1 = Except.ok r) := by
  refine ⟨?_, ?_, ?_⟩
  · cases item? with
    | none => simpa using hlen
    | some item =>
      simp only [addItem]
      split
      · simpa using hlen
      · split
        · simpa [sendTaskUpdate] using hlen
        · rename_i hvalid hcap
          cases hl : lookupKey s.inventory item.id with
          | some existing =>
            have hk : hasKey s.inventory item.id = true := by
              rw [hasKey_eq_isSome, hl]; rfl
            simp [saveInventory, sendTaskUpdate, length_setKey, hk]
            exact hlen
          | none =>
            have hk : hasKey s.inventory item.id = false := by
              rw [hasKey_eq_isSome, hl]; rfl
            have hlt : s.inventory.length < s.maxSlots := by
              rcases Nat.lt_or_ge s.inventory.length s.maxSlots with h | h
              · exact h
              · exact absurd ⟨h, hl⟩ hcap
            simp [saveInventory, sendTaskUpdate, length_setKey, hk]
            exact hlt
  · intro item hitem hvalid hfull hlnone
    subst hitem
    simp only [addItem]
    rw [if_neg hvalid]
    rw [if_pos (show s.maxSlots ≤ s.inventory.length ∧ lookupKey s.inventory item.id = none
      from ⟨hfull ▸ Nat.le_refl _, hlnone⟩)]
    exact ⟨rfl, rfl⟩
  · intro item hitem hvalid hhas
    subst hitem
    have hsome : (lookupKey s.inventory item.id).isSome = true := by
      rw [← hasKey_eq_isSome]; exact hhas
    obtain ⟨v, hv⟩ := Option.isSome_iff_exists.mp hsome
    simp only [addItem]
    rw [if_neg hvalid]
    rw [if_neg (show ¬(s.maxSlots ≤ s.inventory.length ∧ lookupKey s.inventory item.id = none)
      from fun hc => by rw [hv] at hc; exact Option.noConfusion hc.2)]
    rw [hv]
    exact ⟨_, rfl⟩

/-- C1 counterexample: a `craftItem` that fails *while producing the result*
is not atomic.  With a full one-slot store holding five wood and a recipe
consuming two wood to produce a (new-id) axe, validation passes, the wood is
consumed down to 3, and then `addItem` of the axe throws `CapacityExceeded`:
the call fails but the store differs from the pre-call store. -/
theorem craftItem_not_atomic_on_result_failure :
    (craftItem woodState axeRecipe 1 9).1 = Except.error InvError.capacityExceeded
  ∧ (craftItem woodState axeRecipe 1 9).2.inventory ≠ woodState.inventory
  ∧ (lookupKey (craftItem woodState axeRecipe 1 9).2.inventory "wood").map Item.quantity
      = some 3 := by
  refine ⟨by decide, by decide, by decide⟩

theorem removeItem_error_shape (s : InvState) (itemId : String) (q? : Option Int) (now : Nat)
    (e : InvError) (s1 : InvState)
    (h : removeItem s itemId q? now = (Except.error e, s1)) :
    e = InvError.notFound itemId ∧ s1 = s := by
  simp only [removeItem] at h
  split at h
  · simp only [Prod.mk.injEq, Except.error.injEq] at h
    exact ⟨h.1.symm, h.2.symm⟩
  · split at h
    · simp at h
    · split at h
      · simp at h
      · simp at h

theorem consumeMaterials_error_shape (mats : List Material) (s : InvState) (mult : Int)
    (now : Nat) (e : InvError) (s1 : InvState)
    (h : consumeMaterials s mats mult now = (Except.error e, s1)) :
    ∃ i, e = InvError.notFound i := by
  induction mats generalizing s with
  | nil => simp [consumeMaterials] at h
  | cons m rest ih =>
    simp only [consumeMaterials] at h
    cases hr : removeItem s m.id (some (m.quantity * mult)) now with
    | mk r s' =>
      rw [hr] at h
      cases r with
      | error e' =>
        simp only [Prod.mk.injEq, Except.error.injEq] at h
        obtain ⟨h1, -⟩ := removeItem_error_shape s m.id _ now e' s' hr
        exact ⟨m.id, h.1.symm.trans h1⟩
      | ok u => exact ih s' h

theorem addItem_error_shape (s : InvState) (item? : Option Item) (q : Int) (now : Nat)
    (e : InvError) (s1 : InvState)
    (h : addItem s item? q now = (Except.error e, s1)) :
    e = InvError.runtimeTypeError ∨ e = InvError.invalidItem ∨ e = InvError.capacityExceeded := by
  simp only [addItem] at h
  split at h
  · simp only [Prod.mk.injEq, Except.error.injEq] at h
    exact Or.inl h.1.symm
  · split at h
    · simp only [Prod.mk.injEq, Except.error.injEq] at h
      exact Or.inr (Or.inl h.1.symm)
    · split at h
      · simp only [Prod.mk.injEq, Except.error.injEq] at h
        exact Or.inr (Or.inr h.1.symm)
      · split at h
        · simp at h
        · simp at h

theorem craftItem_insufficient_state (s : InvState) (recipe : Recipe) (q : Int) (now : Nat)
    (n : String)
    (h : (craftItem s recipe q now).1 = Except.error (InvError.insufficientMaterial n)) :
    (craftItem s recipe q now).2 = s := by
  simp only [craftItem] at h ⊢
  cases hf : findInsufficient s recipe.materials q with
  | some m => simp [hf]
  | none =>
    simp only [hf] at h ⊢
    cases hc : consumeMaterials s recipe.materials q now with
    | mk cr s1 =>
      simp only [hc] at h ⊢
      cases cr with
      | error e =>
        obtain ⟨i, hi⟩ := consumeMaterials_error_shape _ _ _ _ _ _ hc
        simp only [Except.error.injEq] at h
        rw [hi] at h
        exact absurd h (by intro hc'; cases hc')
      | ok u =>
        cases ha : addItem s1 (some recipe.result) q now with
        | mk ar s2 =>
          simp only [ha] at h ⊢
          cases ar with
          | error e =>
            rcases addItem_error_shape _ _ _ _ _ _ ha with h1 | h1 | h1 <;>
              (rw [h1] at h; exact absurd h (by intro hc'; cases hc'))
          | ok it => simp at h

theorem upgradeTool_validation_state (s : InvState) (toolId : String) (mats : List Material)
    (now : Nat) (e : InvError)
    (he : e = InvError.invalidTool ∨ ∃ n, e = InvError.insufficientMaterial n)
    (h : (upgradeTool s toolId mats now).1 = Except.error e) :
    (upgradeTool s toolId mats now).2 = s := by
  simp only [upgradeTool] at h ⊢
  cases hg : getItem s toolId with
  | none => simp [hg]
  | some tool =>
    simp only [hg] at h ⊢
    split at h
    · rename_i hty
      rw [if_pos hty]
    · rename_i htype
      rw [if_neg htype]
      cases hf : findInsufficient s mats 1 with
      | some m => simp [hf]
      | none =>
        simp only [hf] at h ⊢
        cases hc : consumeMaterials s mats 1 now with
        | mk cr s1 =>
          simp only [hc] at h ⊢
          cases cr with
          | error e' =>
            obtain ⟨i, hi⟩ := consumeMaterials_error_shape _ _ _ _ _ _ hc
            simp only [Except.error.injEq] at h
            rw [h] at hi
            rcases he with h1 | ⟨n, h1⟩ <;> (rw [h1] at hi; exact absurd hi (by intro hc'; cases hc'))
          | ok u => simp at h

/-- C1 (amended): the validation pass of the resolver is atomic — a
`craftItem` that fails with `InsufficientMaterial`, and an `upgradeTool` that
fails with `InvalidTool` or `InsufficientMaterial`, leave the engine state
(store included) exactly as it was — but a `craftItem` failure while adding
the result item occurs after the materials were consumed (see the
counterexample), so atomicity does not extend to arbitrary failures. -/
theorem craft_upgrade_validation_atomic (s : InvState) (recipe : Recipe) (q : Int)
    (toolId : String) (mats : List Material) (now : Nat) (n : String) :
    ((craftItem s recipe q now).1 = Except.error (InvError.insufficientMaterial n) →
      (craftItem s recipe q now).2 = s)
  ∧ ((upgradeTool s toolId mats now).1 = Except.error InvError.invalidTool →
      (upgradeTool s toolId mats now).2 = s)
  ∧ ((upgradeTool s toolId mats now).1 = Except.error (InvError.insufficientMaterial n) →
      (upgradeTool s toolId mats now).2 = s) := by
  refine ⟨fun h => craftItem_insufficient_state s recipe q now n h,
          fun h => upgradeTool_validation_state s toolId mats now _ (Or.inl rfl) h,
          fun h => upgradeTool_validation_state s toolId mats now _ (Or.inr ⟨n, rfl⟩) h⟩

/-- Witness for `craft_upgrade_validation_atomic`: the spec's crafting
scenario — one wood in store, recipe needs two wood and one stone — fails
with `InsufficientMaterial "Wood"` and leaves the state untouched. -/
theorem craft_upgrade_validation_atomic_witness :
    (craftItem shortWoodState axeRecipe2 1 6).1
      = Except.error (InvError.insufficientMaterial "Wood")
  ∧ (craftItem shortWoodState axeRecipe2 1 6).2 = shortWoodState :=
  ⟨by decide, (craft_upgrade_validation_atomic shortWoodState axeRecipe2 1 "t" [] 6 "Wood").1
    (by decide)⟩

/-- Witness for `addItem_capacity_invariant`: adding a new id to a full
one-slot store fails `CapacityExceeded` and leaves the item map unchanged. -/
theorem addItem_capacity_invariant_witness :
    (addItem fullState (some (mkItem "b" "Berry" "resource" 1)) 1 5).1
      = Except.error InvError.capacityExceeded
  ∧ (addItem fullState (some (mkItem "b" "Berry" "resource" 1)) 1 5).2.inventory
      = fullState.inventory :=
  (addItem_capacity_invariant fullState (some (mkItem "b" "Berry" "resource" 1)) 1 5
    (by decide)).2.1 (mkItem "b" "Berry" "resource" 1) rfl (by decide) (by decide) (by decide)

theorem removeItem_partial (s : InvState) (itemId : String) (q : Int) (now : Nat) (it : Item)
    (hl : lookupKey s.inventory itemId = some it) (hlt : q < it.quantity) :
    (removeItem s itemId (some q) now).1
      = Except.ok { removed := false, quantity := q, remaining := some (it.quantity - q) }
  ∧ (removeItem s itemId (some q) now).2.inventory
      = setKey s.inventory itemId { it with quantity := it.quantity - q, lastModified := now }
  ∧ (removeItem s itemId (some q) now).2.sent
      = s.sent ++ [(getTaskName s "item_updated" itemId, "SetActiveToActive")] := by
  have hnle : ¬ it.quantity ≤ q := Int.not_le.mpr hlt
  simp only [removeItem, hl]
  rw [if_neg hnle]
  exact ⟨rfl, rfl, rfl⟩

theorem removeItem_full (s : InvState) (itemId : String) (q? : Option Int) (now : Nat)
    (it : Item) (hl : lookupKey s.inventory itemId = some it)
    (hq : q? = none ∨ ∃ q, q? = some q ∧ it.quantity ≤ q) :
    (removeItem s itemId q? now).1 = Except.ok { removed := true, quantity := it.quantity }
  ∧ (removeItem s itemId q? now).2.inventory = delKey s.inventory itemId
  ∧ (removeItem s itemId q? now).2.sent
      = s.sent ++ [(getTaskName s "item_removed" itemId, "SetActiveToCompleted")] := by
  rcases hq with hq | ⟨q, hq, hle⟩
  · subst hq
    simp [removeItem, hl, saveInventory, sendTaskUpdate, getTaskName]
  · subst hq
    simp [removeItem, hl, hle, saveInventory, sendTaskUpdate, getTaskName]

/-- C6: `useItem` fails `NotFound` when the id is absent, `InsufficientQuantity`
when the stored quantity is below the requested one, `NotConsumable` unless the
record is marked consumable or typed seed/fertilizer, and otherwise succeeds by
delegating to `removeItem`: using less than the current quantity leaves the
record decremented, while using exactly the current quantity deletes it. -/
theorem useItem_spec (s : InvState) (itemId : String) (q : Int) (now : Nat) :
    (lookupKey s.inventory itemId = none →
      useItem s itemId q now = (Except.error (InvError.notFound itemId), s))
  ∧ (∀ it : Item, lookupKey s.inventory itemId = some it → it.quantity < q →
      useItem s itemId q now = (Except.error (InvError.insufficientQuantity it.name), s))
  ∧ (∀ it : Item, lookupKey s.inventory itemId = some it → ¬ it.quantity < q →
      it.consumable = false → it.type ≠ "seed" → it.type ≠ "fertilizer" →
      useItem s itemId q now = (Except.error (InvError.notConsumable it.name), s))
  ∧ (∀ it : Item, lookupKey s.inventory itemId = some it →
      (it.consumable = true ∨ it.type = "seed" ∨ it.type = "fertilizer") →
      q < it.quantity →
      (useItem s itemId q now).1 = Except.ok ()
        ∧ lookupKey (useItem s itemId q now).2.inventory itemId
            = some { it with quantity := it.quantity - q, lastModified := now })
  ∧ (∀ it : Item, lookupKey s.inventory itemId = some it →
      (it.consumable = true ∨ it.type = "seed" ∨ it.type = "fertilizer") →
      q = it.quantity →
      (useItem s itemId q now).1 = Except.ok ()
        ∧ hasKey (useItem s itemId q now).2.inventory itemId = false) := by
  refine ⟨?_, ?_, ?_, ?_, ?_⟩
  · intro hl
    simp [useItem, hl]
  · intro it hl hq
    simp only [useItem, hl]
    rw [if_pos hq]
  · intro it hl hq hcons htys htyf
    simp only [useItem, hl]
    rw [if_neg hq, if_pos ⟨hcons, htys, htyf⟩]
  · intro it hl hok hlt
    have hnlt : ¬ it.quantity < q := Int.not_lt.mpr (Int.le_of_lt hlt)
    have hncons : ¬ (it.consumable = false ∧ it.type ≠ "seed" ∧ it.type ≠ "fertilizer") := by
      rcases hok with h | h | h
      · exact fun hc => by rw [h] at hc; exact Bool.noConfusion hc.1
      · exact fun hc => hc.2.1 h
      · exact fun hc => hc.2.2 h
    have hp := removeItem_partial s itemId q now it hl hlt
    simp only [useItem, hl]
    rw [if_neg hnlt, if_neg hncons]
    rcases hr : removeItem s itemId (some q) now with ⟨res, st⟩
    have hres : res = Except.ok ⟨false, q, some (it.quantity - q)⟩ := by
      have := hp.1
      rw [hr] at this
      exact this
    have hinv : st.inventory = setKey s.inventory itemId { it with quantity := it.quantity - q, lastModified := now } := by
      have := hp.2.1
      rw [hr] at this
      exact this
    subst hres
    refine ⟨rfl, ?_⟩
    simp only [sendTaskUpdate, hinv]
    exact lookupKey_setKey _ _ _
  · intro it hl hok hq
    have hnlt : ¬ it.quantity < q := by rw [hq]; exact Int.lt_irrefl it.quantity
    have hncons : ¬ (it.consumable = false ∧ it.type ≠ "seed" ∧ it.type ≠ "fertilizer") := by
      rcases hok with h | h | h
      · exact fun hc => by rw [h] at hc; exact Bool.noConfusion hc.1
      · exact fun hc => hc.2.1 h
      · exact fun hc => hc.2.2 h
    have hf := removeItem_full s itemId (some q) now it hl
      (Or.inr ⟨q, rfl, Int.le_of_eq hq.symm⟩)
    simp only [useItem, hl]
    rw [if_neg hnlt, if_neg hncons]
    rcases hr : removeItem s itemId (some q) now with ⟨res, st⟩
    have hres : res = Except.ok ⟨true, it.quantity, none⟩ := by
      have := hf.1
      rw [hr] at this
      exact this
    have hinv : st.inventory = delKey s.inventory itemId := by
      have := hf.2.1
      rw [hr] at this
      exact this
    subst hres
    refine ⟨rfl, ?_⟩
    simp only [sendTaskUpdate, hinv]
    exact hasKey_delKey _ _

/-- Witness for `useItem_spec`: the spec's seed scenario — a seed stack of
three, `use(seed-1, 2)` succeeds leaving quantity 1, then using the last unit
removes the record entirely. -/
theorem useItem_spec_witness :
    ((useItem seedState "seed-1" 2 5).1 = Except.ok ()
      ∧ lookupKey (useItem seedState "seed-1" 2 5).2.inventory "seed-1"
          = some { mkItem "seed-1" "Tomato Seed" "seed" 3 with quantity := 1, lastModified := 5 })
  ∧ ((useItem (invSt 50 [("seed-1", mkItem "seed-1" "Tomato Seed" "seed" 1)]) "seed-1" 1 6).1
        = Except.ok ()
      ∧ hasKey (useItem (invSt 50 [("seed-1", mkItem "seed-1" "Tomato Seed" "seed" 1)])
          "seed-1" 1 6).2.inventory "seed-1" = false) := by
  constructor
  · have h := (useItem_spec seedState "seed-1" 2 5).2.2.2.1
      (mkItem "seed-1" "Tomato Seed" "seed" 3) (by decide) (Or.inr (Or.inl rfl)) (by decide)
    exact ⟨h.1, by rw [h.2]; decide⟩
  · have h := (useItem_spec (invSt 50 [("seed-1", mkItem "seed-1" "Tomato Seed" "seed" 1)])
      "seed-1" 1 6).2.2.2.2
      (mkItem "seed-1" "Tomato Seed" "seed" 1) (by decide) (Or.inr (Or.inl rfl)) (by decide)
    exact h


theorem gardenRoute_unknown (s : InvState) (msg : UnityMessage) (now : Nat)
    (h : msg.action ∉ knownActions) : gardenRoute s msg now = none := by
  unfold gardenRoute
  split <;> rename_i heq
  · exact absurd (by rw [heq]; simp [knownActions]) h
  · exact absurd (by rw [heq]; simp [knownActions]) h
  · exact absurd (by rw [heq]; simp [knownActions]) h
  · exact absurd (by rw [heq]; simp [knownActions]) h
  · rfl

theorem baseRoute_unknown (s : InvState) (msg : UnityMessage) (now : Nat)
    (h : msg.action ∉ knownActions) : baseRoute s msg now = none := by
  unfold baseRoute
  split <;> rename_i heq
  · exact absurd (by rw [heq]; simp [knownActions]) h
  · exact absurd (by rw [heq]; simp [knownActions]) h
  · exact absurd (by rw [heq]; simp [knownActions]) h
  · exact absurd (by rw [heq]; simp [knownActions]) h
  · exact absurd (by rw [heq]; simp [knownActions]) h
  · exact absurd (by rw [heq]; simp [knownActions]) h
  · exact absurd (by rw [heq]; simp [knownActions]) h
  · exact absurd (by rw [heq]; simp [knownActions]) h
  · exact absurd (by rw [heq]; simp [knownActions]) h
  · exact absurd (by rw [heq]; simp [knownActions]) h
  · rfl

/-- C9: the dispatcher is an error boundary — it is a total function (no
exception escapes it); any failure the routed Item Store / Resolver call
raises is caught and converted into a `garden_error_<action>` or
`inventory_error_<action>` notification with target state
`SetActiveToNotActive` on the state the failed operation left behind; and a
message whose action is outside the dispatch vocabulary leaves the engine
state completely unchanged and emits nothing. -/
theorem dispatcher_error_isolation (s : InvState) (msg : UnityMessage) (now : Nat) :
    (msg.action ∉ knownActions → handleUnityMessage s msg now = s)
  ∧ (∀ (e : InvError) (s1 : InvState), gardenRoute s msg now = some (Except.error e, s1) →
      handleUnityMessage s msg now
        = sendTaskUpdate s1 ("garden_error_" ++ msg.action) "SetActiveToNotActive")
  ∧ (∀ (e : InvError) (s1 : InvState), gardenRoute s msg now = none →
      baseRoute s msg now = some (Except.error e, s1) →
      handleUnityMessage s msg now
        = sendTaskUpdate s1 ("inventory_error_" ++ msg.action) "SetActiveToNotActive") := by
  refine ⟨?_, ?_, ?_⟩
  · intro h
    rw [handleUnityMessage, gardenRoute_unknown s msg now h, handleBase,
      baseRoute_unknown s msg now h]
  · intro e s1 hg
    rw [handleUnityMessage, hg]
  · intro e s1 hg hb
    rw [handleUnityMessage, hg, handleBase, hb]

/-- Witness for `dispatcher_error_isolation`: an unknown action is a complete
no-op, and a failing `removeItem` on an empty store yields exactly one
`inventory_error_removeItem` / `SetActiveToNotActive` notification. -/
theorem dispatcher_error_isolation_witness :
    handleUnityMessage capState { action := "fooBar" } 3 = capState
  ∧ handleUnityMessage capState { action := "removeItem", itemId := some "ghost" } 3
      = sendTaskUpdate capState "inventory_error_removeItem" "SetActiveToNotActive" := by
  constructor
  · exact (dispatcher_error_isolation capState { action := "fooBar" } 3).1 (by decide)
  · exact (dispatcher_error_isolation capState
      { action := "removeItem", itemId := some "ghost" } 3).2.2
      (InvError.notFound "ghost") capState rfl rfl

/-- C10: the read operations are pure — dispatching `getItem`, `getInventory`
or `getCategory` leaves the item map untouched (`getItem`,
`getItemsByCategory` and `getInventory` are functions of the state only), and
`getItem` of an absent id returns `none` (JS `null`) rather than failing. -/
theorem read_operations_pure (s : InvState) (msg : UnityMessage) (now : Nat)
    (itemId : String) :
    (msg.action = "getItem" ∨ msg.action = "getInventory" ∨ msg.action = "getCategory" →
      (handleUnityMessage s msg now).inventory = s.inventory)
  ∧ (lookupKey s.inventory itemId = none → getItem s itemId = none) := by
  constructor
  · intro h
    cases msg with
    | mk action item itemId2 quantity updates targetId category name value seedId
        plotId produce toolId upgradeMaterials recipe =>
      rcases h with h | h | h <;> (simp only at h; subst h; rfl)
  · intro h
    rw [getItem, h]

/-- Witness for `read_operations_pure`: dispatching `getInventory` on a
concrete store keeps the item map intact, and `getItem` of an absent id is
`none`. -/
theorem read_operations_pure_witness :
    (handleUnityMessage twoItemState { action := "getInventory" } 4).inventory
      = twoItemState.inventory
  ∧ getItem twoItemState "ghost" = none := by
  constructor
  · exact (read_operations_pure twoItemState { action := "getInventory" } 4 "x").1
      (Or.inr (Or.inl rfl))
  · exact (read_operations_pure twoItemState { action := "getInventory" } 4 "ghost").2
      (by decide)


theorem foldl_setKey_fresh : ∀ (items : List Item) (acc : List (String × Item)),
    (∀ it ∈ items, hasKey acc it.id = false) → (items.map Item.id).Nodup →
    items.foldl (fun l it => setKey l it.id it) acc
      = acc ++ items.map (fun it => (it.id, it)) := by
  intro items
  induction items with
  | nil => intro acc _ _; simp
  | cons it rest ih =>
    intro acc hfresh hnodup
    have hacc : hasKey acc it.id = false := hfresh it (List.mem_cons_self it rest)
    have hset : setKey acc it.id it = acc ++ [(it.id, it)] := by
      unfold setKey
      rw [if_neg (by simp [hacc])]
    rw [List.map_cons, List.nodup_cons] at hnodup
    have hrest : ∀ it' ∈ rest, hasKey (acc ++ [(it.id, it)]) it'.id = false := by
      intro it' hmem
      have h1 : hasKey acc it'.id = false := hfresh it' (List.mem_cons_of_mem it hmem)
      have hne : it.id ≠ it'.id := by
        intro hc
        exact hnodup.1 (hc ▸ List.mem_map_of_mem Item.id hmem)
      rw [hasKey_append, h1]
      simp [hasKey_cons, hasKey, hne]
    calc (it :: rest).foldl (fun l x => setKey l x.id x) acc
        = rest.foldl (fun l x => setKey l x.id x) (acc ++ [(it.id, it)]) := by
          rw [List.foldl_cons, hset]
      _ = (acc ++ [(it.id, it)]) ++ rest.map (fun x => (x.id, x)) := ih _ hrest hnodup.2
      _ = acc ++ (it :: rest).map (fun x => (x.id, x)) := by simp

/-- C7: `exportData` followed by `importData` of the exported blob rebuilds an
item map equal to the original regardless of the importing store's prior
content (wholesale replacement, not merge), provided the store is well-formed
(each record carries its map key as `id`, keys distinct — the invariant
`addItem` maintains); and `importData` of a blob whose `items` field is
missing or not an array fails `InvalidImportData` leaving the store unchanged. -/
theorem export_import_round_trip (s s' : InvState) (now : Nat)
    (hwf : ∀ p ∈ s.inventory, Item.id p.2 = p.1)
    (hnodup : (s.inventory.map Prod.fst).Nodup) :
    (importData s' (some (exportData s now).items)).2.inventory = s.inventory
  ∧ importData s' none = (Except.error InvError.invalidImportData, s') := by
  constructor
  · have hids : (s.inventory.map Prod.snd).map Item.id = s.inventory.map Prod.fst := by
      rw [List.map_map]
      exact List.map_congr_left hwf
    have hfresh : ∀ it ∈ s.inventory.map Prod.snd, hasKey ([] : List (String × Item)) it.id
        = false := by
      intro it _
      rfl
    simp only [importData, exportData]
    rw [foldl_setKey_fresh (s.inventory.map Prod.snd) [] hfresh (hids ▸ hnodup)]
    rw [List.nil_append, List.map_map]
    have hpt : ∀ p ∈ s.inventory, ((fun x : Item => (x.id, x)) ∘ Prod.snd) p = p := by
      intro p hp
      cases p with
      | mk k v =>
        have := hwf ⟨k, v⟩ hp
        simp only [Function.comp_apply]
        rw [show Item.id v = k from this]
    calc s.inventory.map ((fun x : Item => (x.id, x)) ∘ Prod.snd)
        = s.inventory.map id := List.map_congr_left hpt
      _ = s.inventory := List.map_id s.inventory
  · rfl

/-- Witness for `export_import_round_trip`: the two-item store survives an
export/import cycle into an unrelated (empty, smaller) store verbatim, and a
`none` items blob is rejected without touching the target store. -/
theorem export_import_round_trip_witness :
    (importData capState (some (exportData twoItemState 9).items)).2.inventory
      = twoItemState.inventory
  ∧ importData capState none = (Except.error InvError.invalidImportData, capState) :=
  export_import_round_trip twoItemState capState 9 (by decide) (by decide)


/-- C8 counterexample: a single `useItem` outcome emits *two* target-state
tokens, not "exactly one per outcome" — the delegated `removeItem` sends
`item_removed`/`SetActiveToCompleted` and then `useItem` sends its own
`item_used`/`SetActiveToCompleted`. -/
theorem useItem_emits_two_tokens :
    (useItem consumableState "a" 5 3).2.sent
      = [("inventory_item_removed_a", "SetActiveToCompleted"),
         ("inventory_item_used_a", "SetActiveToCompleted")]
  ∧ (useItem consumableState "a" 5 3).2.sent.length ≠ 1 := by
  exact ⟨by decide, by decide⟩

/-- C8 (amended): the action-to-token mapping holds with the listed tokens —
add-new → `SetNotActiveToCompleted`, add-to-existing → `SetNotActiveToActive`,
capacity-exceeded add → `SetNotActiveToActive`, partial removal →
`SetActiveToActive`, full removal / clear → `SetActiveToCompleted` — but
composite operations emit the delegated removal's token *followed by* their
own `SetActiveToCompleted` (so use/transfer emit two tokens), and a caught
failure additionally appends `SetActiveToNotActive` at the dispatcher. -/
theorem token_mapping (s : InvState) (item? : Option Item) (itemId targetId : String)
    (q? : Option Int) (q : Int) (now : Nat) (msg : UnityMessage) :
    (addItem s item? q now).2.sent.map Prod.snd
        = s.sent.map Prod.snd ++ claimedAddTokens s item?
  ∧ (removeItem s itemId q? now).2.sent.map Prod.snd
        = s.sent.map Prod.snd ++ claimedRemoveTokens s itemId q?
  ∧ (useItem s itemId q now).2.sent.map Prod.snd
        = s.sent.map Prod.snd ++ claimedUseTokens s itemId q
  ∧ (transferItem s itemId q? targetId now).2.sent.map Prod.snd
        = s.sent.map Prod.snd ++ claimedTransferTokens s itemId q?
  ∧ (clearInventory s).2.sent.map Prod.snd
        = s.sent.map Prod.snd ++ ["SetActiveToCompleted"]
  ∧ (∀ (e : InvError) (s1 : InvState), gardenRoute s msg now = some (Except.error e, s1) →
      (handleUnityMessage s msg now).sent.map Prod.snd
        = s1.sent.map Prod.snd ++ ["SetActiveToNotActive"])
  ∧ (∀ (e : InvError) (s1 : InvState), gardenRoute s msg now = none →
      baseRoute s msg now = some (Except.error e, s1) →
      (handleUnityMessage s msg now).sent.map Prod.snd
        = s1.sent.map Prod.snd ++ ["SetActiveToNotActive"]) := by
  refine ⟨?_, ?_, ?_, ?_, ?_, ?_, ?_⟩
  · cases item? with
    | none => simp [addItem, claimedAddTokens]
    | some item =>
      by_cases hv : item.id = "" ∨ item.name = "" ∨ item.type = ""
      · simp [addItem, claimedAddTokens, hv]
      · by_cases hc : s.maxSlots ≤ s.inventory.length ∧ lookupKey s.inventory item.id = none
        · simp [addItem, claimedAddTokens, hv, hc, sendTaskUpdate, saveInventory]
        · cases hl : lookupKey s.inventory item.id with
          | some ex =>
            simp [addItem, claimedAddTokens, hv, hc, hl, sendTaskUpdate, saveInventory]
          | none =>
            have hnle : ¬ s.maxSlots ≤ s.inventory.length := fun hx => hc ⟨hx, hl⟩
            simp [addItem, claimedAddTokens, hv, hc, hl, hnle, sendTaskUpdate, saveInventory]
  · cases hl : lookupKey s.inventory itemId with
    | none => simp [removeItem, claimedRemoveTokens, hl]
    | some it =>
      cases q? with
      | none => simp [removeItem, claimedRemoveTokens, hl, sendTaskUpdate, saveInventory]
      | some qq =>
        by_cases hle : it.quantity ≤ qq
        · simp [removeItem, claimedRemoveTokens, hl, hle, sendTaskUpdate, saveInventory]
        · simp [removeItem, claimedRemoveTokens, hl, hle, sendTaskUpdate, saveInventory]
  · cases hl : lookupKey s.inventory itemId with
    | none => simp [useItem, claimedUseTokens, hl]
    | some it =>
      by_cases h1 : it.quantity < q
      · simp [useItem, claimedUseTokens, hl, h1]
      · by_cases h2 : it.consumable = false ∧ it.type ≠ "seed" ∧ it.type ≠ "fertilizer"
        · simp [useItem, claimedUseTokens, hl, h1, h2]
        · rcases hr : removeItem s itemId (some q) now with ⟨res, st⟩
          by_cases hle : it.quantity ≤ q
          · have hf := removeItem_full s itemId (some q) now it hl (Or.inr ⟨q, rfl, hle⟩)
            rw [hr] at hf
            have hres : res = Except.ok ⟨true, it.quantity, none⟩ := hf.1
            have hsent : st.sent
                = s.sent ++ [(getTaskName s "item_removed" itemId, "SetActiveToCompleted")] :=
              hf.2.2
            subst hres
            simp only [useItem, hl, claimedUseTokens, claimedRemoveTokens]
            rw [if_neg h1, if_neg h2, if_neg h1, if_neg h2, if_pos hle, hr]
            simp [sendTaskUpdate, hsent]
          · have hlt : q < it.quantity := Int.not_le.mp hle
            have hp := removeItem_partial s itemId q now it hl hlt
            rw [hr] at hp
            have hres : res = Except.ok ⟨false, q, some (it.quantity - q)⟩ := hp.1
            have hsent : st.sent
                = s.sent ++ [(getTaskName s "item_updated" itemId, "SetActiveToActive")] :=
              hp.2.2
            subst hres
            simp only [useItem, hl, claimedUseTokens, claimedRemoveTokens]
            rw [if_neg h1, if_neg h2, if_neg h1, if_neg h2, if_neg hle, hr]
            simp [sendTaskUpdate, hsent]
  · cases hl : lookupKey s.inventory itemId with
    | none => simp [transferItem, claimedTransferTokens, getItem, hl]
    | some it =>
      by_cases hins : (match q? with
        | some qq => decide (it.quantity < qq)
        | none => false) = true
      · simp only [transferItem, claimedTransferTokens, getItem, hl]
        rw [if_pos hins, if_pos hins]
        simp
      · cases q? with
        | none =>
          rcases hr : removeItem s itemId none now with ⟨res, st⟩
          have hf := removeItem_full s itemId none now it hl (Or.inl rfl)
          rw [hr] at hf
          have hres : res = Except.ok ⟨true, it.quantity, none⟩ := hf.1
          have hsent : st.sent
              = s.sent ++ [(getTaskName s "item_removed" itemId, "SetActiveToCompleted")] :=
            hf.2.2
          subst hres
          simp only [transferItem, claimedTransferTokens, getItem, hl]
          rw [if_neg hins, if_neg hins, hr]
          simp [sendTaskUpdate, hsent, claimedRemoveTokens, hl]
        | some qq =>
          rcases hr : removeItem s itemId (some qq) now with ⟨res, st⟩
          by_cases hle : it.quantity ≤ qq
          · have hf := removeItem_full s itemId (some qq) now it hl (Or.inr ⟨qq, rfl, hle⟩)
            rw [hr] at hf
            have hres : res = Except.ok ⟨true, it.quantity, none⟩ := hf.1
            have hsent : st.sent
                = s.sent ++ [(getTaskName s "item_removed" itemId, "SetActiveToCompleted")] :=
              hf.2.2
            subst hres
            simp only [transferItem, claimedTransferTokens, getItem, hl]
            rw [if_neg hins, if_neg hins, hr]
            simp [sendTaskUpdate, hsent, claimedRemoveTokens, hl, hle]
          · have hlt : qq < it.quantity := Int.not_le.mp hle
            have hp := removeItem_partial s itemId qq now it hl hlt
            rw [hr] at hp
            have hres : res = Except.ok ⟨false, qq, some (it.quantity - qq)⟩ := hp.1
            have hsent : st.sent
                = s.sent ++ [(getTaskName s "item_updated" itemId, "SetActiveToActive")] :=
              hp.2.2
            subst hres
            simp only [transferItem, claimedTransferTokens, getItem, hl]
            rw [if_neg hins, if_neg hins, hr]
            simp [sendTaskUpdate, hsent, claimedRemoveTokens, hl, hle]
  · simp [clearInventory, sendTaskUpdate, saveInventory]
  · intro e s1 hg
    rw [handleUnityMessage, hg]
    simp [sendTaskUpdate]
  · intro e s1 hg hb
    rw [handleUnityMessage, hg, handleBase, hb]
    simp [sendTaskUpdate]

/-- Witness for `token_mapping`: concrete token sequences — a fresh add emits
`SetNotActiveToCompleted` and a dispatched failing removal appends
`SetActiveToNotActive`. -/
theorem token_mapping_witness :
    (addItem capState (some (mkItem "a" "A" "resource" 1)) 1 2).2.sent.map Prod.snd
      = ["SetNotActiveToCompleted"]
  ∧ (handleUnityMessage capState { action := "removeItem", itemId := some "ghost" } 3).sent.map
      Prod.snd = ["SetActiveToNotActive"] := by
  constructor
  · have h := (token_mapping capState (some (mkItem "a" "A" "resource" 1)) "x" "y" none 1 2
      { action := "x" }).1
    rw [h]
    decide
  · have h := (token_mapping capState (some (mkItem "a" "A" "resource" 1)) "x" "y" none 1 3
      { action := "removeItem", itemId := some "ghost" }).2.2.2.2.2.2
      (InvError.notFound "ghost") capState rfl rfl
    rw [h]
    decide

end GardenInv
